import Mathlib

/-!
Verification of the client-side shopping-cart store of the
`the-gadgeto-frontend` repository.

The cart logic lives in `src/app/contexts/NotificationContext.tsx`
(the `CartProvider` component: `addToCart`, `removeFromCart`,
`updateQuantity`, `clearCart`, the load/save effects, `totalPrice`,
`itemCount`) and `src/app/lib/utils.ts` (`ensureNumber`,
`sanitizeCartItem`, the `CartItem` interface).

Modelling conventions (a shallow embedding of the TypeScript source):

* JavaScript numbers are modelled as `ℚ`.  IEEE-754 special values
  (`NaN`, infinities, negative zero) are out of scope.
* Runtime values of TypeScript type `string | number` are modelled by
  `Value`.  Product records crossing the REST-API boundary may carry
  strings in their numeric fields (the repository's own call sites wrap
  `product.price` in `ensureNumber`, showing this happens), so the
  `price`/`stock`/`sellerId` fields of the product handed to `addToCart`
  are `Option Value`; `id` is kept numeric as the TypeScript signature
  and the spec's data model (`id`: integer product identifier) require,
  and the `quantity` parameter is numeric per its declared type.
* `absent` and `null` field values are identified (`none`): the code
  only ever consumes raw fields through JavaScript's `||` operator,
  which treats both identically (falsy).
* The persisted blob is modelled at the JSON-value level (`Json`); the
  outcome of the host primitive `JSON.parse` is an input of the load
  model (`Except Unit Json`, with `.error` for a parse exception).
  Record fields in stored objects are scalars (`SVal`), which covers
  everything this application ever writes.
* Thrown JavaScript exceptions inside the load path (property access on
  `null`, calling `.map` on a non-array) are modelled with `Except`.
-/

/-- A JavaScript value of TypeScript type `string | number`. -/
inductive Value where
  | num (q : ℚ)
  | str (s : String)
deriving DecidableEq, Repr

/-- A scalar JSON value occurring as a field of a stored cart record. -/
inductive SVal where
  | vnull
  | vnum (q : ℚ)
  | vstr (s : String)
deriving DecidableEq, Repr

/-- A JSON document, as produced by `JSON.parse` on the persisted blob.
Object fields are restricted to scalars (see the module docstring). -/
inductive Json where
  | null
  | num (q : ℚ)
  | str (s : String)
  | arr (elems : List Json)
  | obj (fields : List (String × SVal))

/-- Digits-to-number accumulator for `parseFloatQ`. -/
def digitsToNat (cs : List Char) : ℕ :=
  cs.foldl (fun n c => 10 * n + (c.toNat - ('0').toNat)) 0

/-- Models the host primitive `parseFloat` on finite decimal inputs:
optional leading whitespace, optional sign, a decimal significand with at
least one digit, and an optional well-formed exponent; any other input
(in particular the empty string or a non-numeric string) yields `none`,
standing for `NaN`.  Non-finite results (`Infinity`) are out of scope. -/
def parseFloatQ (s : String) : Option ℚ :=
  let cs := s.data.dropWhile Char.isWhitespace
  let sign : ℚ := if cs.head? = some '-' then -1 else 1
  let cs := if cs.head? = some '-' ∨ cs.head? = some '+' then cs.tail else cs
  let intPart := cs.takeWhile Char.isDigit
  let rest := cs.dropWhile Char.isDigit
  let fracPart :=
    if rest.head? = some '.' then rest.tail.takeWhile Char.isDigit else []
  if intPart = [] ∧ fracPart = [] then
    none
  else
    let afterFrac :=
      if rest.head? = some '.' then rest.tail.dropWhile Char.isDigit else rest
    let base : ℚ :=
      (digitsToNat intPart : ℚ) + (digitsToNat fracPart : ℚ) / (10 : ℚ) ^ fracPart.length
    let expPart :=
      if afterFrac.head? = some 'e' ∨ afterFrac.head? = some 'E' then
        let ec := afterFrac.tail
        let esign : Bool := ec.head? = some '-'
        let ec := if ec.head? = some '-' ∨ ec.head? = some '+' then ec.tail else ec
        let eds := ec.takeWhile Char.isDigit
        if eds = [] then (false, 0) else (esign, digitsToNat eds)
      else (false, 0)
    let mag : ℚ :=
      if expPart.1 then base / (10 : ℚ) ^ expPart.2 else base * (10 : ℚ) ^ expPart.2
    some (sign * mag)

/-- `ensureNumber` from `src/app/lib/utils.ts`: a string is run through
`parseFloat` with `NaN` collapsing to `0`; a number passes through. -/
def ensureNumber : Value → ℚ
  | .str s => match parseFloatQ s with
      | some q => q
      | none => 0
  | .num q => q

/-- The `CartItem` interface of `src/app/lib/utils.ts`, in the fully
materialised shape that `sanitizeCartItem` produces (every field
present). -/
structure CartItem where
  id : ℚ
  name : String
  price : ℚ
  quantity : ℚ
  fileName : String
  stock : ℚ
  sellerId : ℚ
deriving DecidableEq, Repr

/-- A raw (possibly junk-laden) record as fed into `sanitizeCartItem`:
each field may be absent/null (`none`), and the numeric fields may hold
strings.  `name`/`fileName` hold strings when present (numeric values in
those fields are out of scope; no claim touches them). -/
structure RawItem where
  id : Option Value
  name : Option String
  price : Option Value
  quantity : Option Value
  fileName : Option String
  stock : Option Value
  sellerId : Option Value
deriving DecidableEq, Repr

/-- JavaScript `x || d` for an optional `string | number` value `x` and a
truthy-or-zero default: absent/null, the number `0` and the empty string
are falsy and give the default. -/
def jsOrV (v : Option Value) (d : Value) : Value :=
  match v with
  | none => d
  | some (.num q) => if q = 0 then d else .num q
  | some (.str s) => if s = "" then d else .str s

/-- JavaScript `x || d` for an optional string value. -/
def jsOrS (v : Option String) (d : String) : String :=
  match v with
  | none => d
  | some s => if s = "" then d else s

/-- `sanitizeCartItem` from `src/app/lib/utils.ts`. -/
def sanitizeCartItem (item : RawItem) : CartItem :=
  ⟨ensureNumber (jsOrV item.id (.num 0)),
   jsOrS item.name "",
   ensureNumber (jsOrV item.price (.num 0)),
   ensureNumber (jsOrV item.quantity (.num 1)),
   jsOrS item.fileName "",
   ensureNumber (jsOrV item.stock (.num 0)),
   ensureNumber (jsOrV item.sellerId (.num 0))⟩

/-- The product argument of `addToCart` (`Omit<CartItem, 'quantity'>`):
`id` and `name` per their declared types, the remaining fields possibly
junk from the API boundary. -/
structure RawProduct where
  id : ℚ
  name : String
  price : Option Value
  stock : Option Value
  fileName : Option String
  sellerId : Option Value
deriving DecidableEq, Repr

/-- The record `{ ...product, quantity }` built in `addToCart`'s insert
branch. -/
def rawOfProduct (p : RawProduct) (quantity : ℚ) : RawItem :=
  ⟨some (.num p.id), some p.name, p.price, some (.num quantity),
   p.fileName, p.stock, p.sellerId⟩

/-- `addToCart` from the `CartProvider` (state-update function on the
item list): merge into an existing line with the same `id`, otherwise
sanitize and append. -/
def addToCart (product : RawProduct) (quantity : ℚ)
    (prevItems : List CartItem) : List CartItem :=
  if prevItems.any (fun item => decide (item.id = product.id)) then
    prevItems.map (fun item =>
      if item.id = product.id then
        { item with quantity := item.quantity + quantity }
      else item)
  else
    prevItems ++ [sanitizeCartItem (rawOfProduct product quantity)]

/-- `removeFromCart` from the `CartProvider`. -/
def removeFromCart (productId : ℚ) (prevItems : List CartItem) : List CartItem :=
  prevItems.filter (fun item => decide (¬ item.id = productId))

/-- `updateQuantity` from the `CartProvider`: non-positive quantities
remove the line, otherwise the matching line's quantity is clamped to
its stock (`Math.min(quantity, item.stock)`). -/
def updateQuantity (productId : ℚ) (quantity : ℚ)
    (prevItems : List CartItem) : List CartItem :=
  if quantity ≤ 0 then
    removeFromCart productId prevItems
  else
    prevItems.map (fun item =>
      if item.id = productId then
        { item with quantity := min quantity item.stock }
      else item)

/-- `totalPrice` from the `CartProvider`:
`reduce((total, item) => total + ensureNumber(item.price) * item.quantity, 0)`. -/
def totalPrice (items : List CartItem) : ℚ :=
  items.foldl (fun total item => total + ensureNumber (.num item.price) * item.quantity) 0

/-- `itemCount` from the `CartProvider`. -/
def itemCount (items : List CartItem) : ℚ :=
  items.foldl (fun count item => count + item.quantity) 0

/-- Coerce a stored scalar field to an optional `string | number` value:
`null` joins `absent` (both are falsy, and `||` is the only consumer). -/
def svalToValue : Option SVal → Option Value
  | some (.vnum q) => some (.num q)
  | some (.vstr s) => some (.str s)
  | _ => none

/-- Coerce a stored scalar field to an optional string (for the
`name`/`fileName` fields). -/
def svalToString : Option SVal → Option String
  | some (.vstr s) => some s
  | _ => none

/-- JavaScript property access of the `CartItem` field names on a parsed
JSON element, as performed inside `sanitizeCartItem`: access on `null`
throws a `TypeError` (`.error`); access on a primitive or an array
yields `undefined` for these names (all fields absent); an object is
looked up field by field. -/
def toRaw : Json → Except Unit RawItem
  | .null => .error ()
  | .obj fs =>
      .ok ⟨svalToValue (fs.lookup "id"),
           svalToString (fs.lookup "name"),
           svalToValue (fs.lookup "price"),
           svalToValue (fs.lookup "quantity"),
           svalToString (fs.lookup "fileName"),
           svalToValue (fs.lookup "stock"),
           svalToValue (fs.lookup "sellerId")⟩
  | _ => .ok ⟨none, none, none, none, none, none, none⟩

/-- `sanitizeCartData` from the `CartProvider`:
`data.map(item => sanitizeCartItem(item))`.  Calling `.map` on a
non-array throws a `TypeError` (`.error`), as does sanitizing a `null`
element. -/
def sanitizeCartData (data : Json) : Except Unit (List CartItem) :=
  match data with
  | .arr elems => elems.mapM (fun j => (toRaw j).map sanitizeCartItem)
  | _ => .error ()

/-- The observable state of the `CartProvider`: the in-memory item list
and the persisted `localStorage` entry under the key `cart`.  The stored
value is `none` when the key is absent, `some (.error ())` when it
holds a string `JSON.parse` rejects, and `some (.ok j)` when it holds
the serialization of the JSON value `j`. -/
structure CartState where
  items : List CartItem
  storage : Option (Except Unit Json)

/-- The load effect of the `CartProvider` (mount): read the saved blob,
parse and sanitize it; on any thrown error (parse failure or a
`TypeError` inside `sanitizeCartData`) the error is caught, the key is
removed, and the items stay at their initial `[]`.  The model returns
normally in every case: no exception escapes. -/
def loadCart (saved : Option (Except Unit Json)) : CartState :=
  match saved with
  | none => ⟨[], none⟩
  | some (.error _) => ⟨[], none⟩
  | some (.ok j) =>
      match sanitizeCartData j with
      | .ok items => ⟨items, some (.ok j)⟩
      | .error _ => ⟨[], none⟩

/-- `JSON.stringify` of one in-memory cart item, at the JSON-value
level (field order as constructed by `sanitizeCartItem`). -/
def encodeItem (c : CartItem) : Json :=
  .obj [("id", .vnum c.id), ("name", .vstr c.name), ("price", .vnum c.price),
        ("quantity", .vnum c.quantity), ("fileName", .vstr c.fileName),
        ("stock", .vnum c.stock), ("sellerId", .vnum c.sellerId)]

/-- `JSON.stringify(cartItems)` at the JSON-value level. -/
def encodeCart (items : List CartItem) : Json :=
  .arr (items.map encodeItem)

/-- The save effect of the `CartProvider`:
`localStorage.setItem('cart', JSON.stringify(cartItems))`, run after
every change of the item list. -/
def saveEffect (s : CartState) : CartState :=
  ⟨s.items, some (.ok (encodeCart s.items))⟩

/-- `clearCart` from the `CartProvider`: `setCartItems([])` and
`localStorage.removeItem('cart')`. -/
def clearCart (_s : CartState) : CartState :=
  ⟨[], none⟩

/-- One user-level cart operation, with arbitrary arguments. -/
inductive CartOp where
  | add (product : RawProduct) (quantity : ℚ)
  | remove (id : ℚ)
  | update (id : ℚ) (quantity : ℚ)
  | clear

/-- Apply one operation to the provider state: the state-update function
of the operation followed by the save effect (which reruns on every
items change). -/
def applyOp (s : CartState) : CartOp → CartState
  | .add p q => saveEffect ⟨addToCart p q s.items, s.storage⟩
  | .remove i => saveEffect ⟨removeFromCart i s.items, s.storage⟩
  | .update i q => saveEffect ⟨updateQuantity i q s.items, s.storage⟩
  | .clear => saveEffect (clearCart s)

/-- Run a sequence of operations from the empty initial state (fresh
browser profile: no items, no stored key). -/
def runOps (ops : List CartOp) : CartState :=
  ops.foldl applyOp ⟨[], none⟩

/-- Boolean guard on operations used by the amended quantity
invariant: `addToCart` calls carry a quantity of at least `1` and a
numeric stock of at least `1`; `updateQuantity` calls carry a quantity
that is non-positive (removal) or at least `1`. -/
def goodOp : CartOp → Bool
  | .add p q =>
      decide (1 ≤ q) &&
        (match p.stock with
         | some (.num s) => decide (1 ≤ s)
         | _ => false)
  | .update _ q => decide (q ≤ 0) || decide (1 ≤ q)
  | _ => true

/-- Every line has quantity and stock at least `1`. -/
def Wf (items : List CartItem) : Prop :=
  ∀ l ∈ items, 1 ≤ l.quantity ∧ 1 ≤ l.stock

/-! ## Helper lemmas -/

lemma ensureNumber_jsOrV_num (q d : ℚ) :
    ensureNumber (jsOrV (some (.num q)) (.num d)) = if q = 0 then d else q := by
  by_cases h : q = 0 <;> simp [jsOrV, ensureNumber, h]

lemma jsOrS_some (s d : String) : jsOrS (some s) d = if s = "" then d else s := rfl

lemma sanitize_rawOfProduct_id (p : RawProduct) (q : ℚ) :
    (sanitizeCartItem (rawOfProduct p q)).id = p.id := by
  show ensureNumber (jsOrV (some (.num p.id)) (.num 0)) = p.id
  rw [ensureNumber_jsOrV_num]
  by_cases h : p.id = 0 <;> simp [h]

lemma sanitize_rawOfProduct_quantity (p : RawProduct) (q : ℚ) (hq : q ≠ 0) :
    (sanitizeCartItem (rawOfProduct p q)).quantity = q := by
  show ensureNumber (jsOrV (some (.num q)) (.num 1)) = q
  rw [ensureNumber_jsOrV_num, if_neg hq]

lemma any_id_eq_false {items : List CartItem} {x : ℚ}
    (h : ¬ ∃ l ∈ items, l.id = x) :
    items.any (fun item => decide (item.id = x)) = false := by
  rw [List.any_eq_false]
  intro l hl
  simp only [decide_eq_true_eq]
  exact fun he => h ⟨l, hl, he⟩

lemma addToCart_of_merge {items : List CartItem} {p : RawProduct} (q : ℚ)
    (h : ∃ l ∈ items, l.id = p.id) :
    addToCart p q items =
      items.map (fun item =>
        if item.id = p.id then { item with quantity := item.quantity + q }
        else item) := by
  obtain ⟨l, hl, hid⟩ := h
  have hc : items.any (fun item => decide (item.id = p.id)) = true :=
    List.any_eq_true.mpr ⟨l, hl, by simp [hid]⟩
  simp [addToCart, hc]

lemma addToCart_of_fresh {items : List CartItem} {p : RawProduct} (q : ℚ)
    (h : ¬ ∃ l ∈ items, l.id = p.id) :
    addToCart p q items = items ++ [sanitizeCartItem (rawOfProduct p q)] := by
  simp [addToCart, any_id_eq_false h]

/-! ## Claim theorems -/

/-- C2: in a cart holding a line with the given id and (per the data
model, non-negative) stock `s`, `updateQuantity` with any quantity
`q > s` leaves that line with quantity exactly `s`; concretely, on the
cart `[{id := 7, price := 15, stock := 3, quantity := 2}]`,
`updateQuantity 7 10` clamps the quantity to `3` and the total price of
the result is `45`. -/
theorem updateQuantity_clamps_to_stock :
    (∀ (items : List CartItem) (pid q : ℚ) (l : CartItem),
        l ∈ items → l.id = pid → 0 ≤ l.stock → l.stock < q →
        { l with quantity := l.stock } ∈ updateQuantity pid q items) ∧
    updateQuantity 7 10 [⟨7, "", 15, 2, "", 3, 0⟩] = [⟨7, "", 15, 3, "", 3, 0⟩] ∧
    totalPrice [⟨7, "", 15, 3, "", 3, 0⟩] = 45 := by
  refine ⟨?_, by decide, by norm_num [totalPrice, List.foldl, ensureNumber]⟩
  intro items pid q l hl hid hs hlt
  have hq : ¬ q ≤ 0 := by linarith
  have hmin : min q l.stock = l.stock := min_eq_right (le_of_lt hlt)
  simp only [updateQuantity, if_neg hq]
  exact List.mem_map.mpr ⟨l, hl, by rw [if_pos hid, hmin]⟩

/-- Witness for C2 at the concrete scenario. -/
theorem updateQuantity_clamps_to_stock_witness :
    ({ (⟨7, "", 15, 2, "", 3, 0⟩ : CartItem) with quantity := 3 } ∈
      updateQuantity 7 10 [⟨7, "", 15, 2, "", 3, 0⟩]) :=
  updateQuantity_clamps_to_stock.1 [⟨7, "", 15, 2, "", 3, 0⟩] 7 10
    ⟨7, "", 15, 2, "", 3, 0⟩ (by decide) (by decide) (by decide) (by decide)

/-- C3: for a non-positive quantity, `updateQuantity` coincides with
`removeFromCart` of that id: no line with that id remains, and every
line with a different id is kept. -/
theorem updateQuantity_nonpos_is_remove :
    ∀ (items : List CartItem) (pid q : ℚ), q ≤ 0 →
      updateQuantity pid q items = removeFromCart pid items ∧
      (∀ l ∈ updateQuantity pid q items, l.id ≠ pid) ∧
      (∀ l ∈ items, l.id ≠ pid → l ∈ updateQuantity pid q items) := by
  intro items pid q hq
  have he : updateQuantity pid q items = removeFromCart pid items := by
    simp [updateQuantity, hq]
  refine ⟨he, ?_, ?_⟩
  · intro l hl
    rw [he] at hl
    simp only [removeFromCart, List.mem_filter, decide_eq_true_eq] at hl
    exact hl.2
  · intro l hl hne
    rw [he]
    simp only [removeFromCart, List.mem_filter, decide_eq_true_eq]
    exact ⟨hl, hne⟩

/-- Witness for C3: `updateQuantity 2 0` on a singleton cart empties it
(concrete scenario C of the spec). -/
theorem updateQuantity_nonpos_is_remove_witness :
    ((0 : ℚ) ≤ 0) ∧
    (updateQuantity 2 0 [⟨2, "", 1, 1, "", 9, 0⟩] =
      removeFromCart 2 [⟨2, "", 1, 1, "", 9, 0⟩] ∧
    (∀ l ∈ updateQuantity 2 0 [⟨2, "", 1, 1, "", 9, 0⟩], l.id ≠ 2) ∧
    (∀ l ∈ ([⟨2, "", 1, 1, "", 9, 0⟩] : List CartItem), l.id ≠ 2 →
      l ∈ updateQuantity 2 0 [⟨2, "", 1, 1, "", 9, 0⟩])) :=
  ⟨by decide, updateQuantity_nonpos_is_remove [⟨2, "", 1, 1, "", 9, 0⟩] 2 0 (by decide)⟩

/-- C6: when the product's id is already present, `addToCart` maps the
cart to itself except that every line with that id has its quantity
incremented by exactly the given quantity (no `min` against stock
anywhere), keeping all other fields, all other lines, and the order. -/
theorem addToCart_merge_increments :
    ∀ (items : List CartItem) (p : RawProduct) (q : ℚ),
      (∃ l ∈ items, l.id = p.id) →
      addToCart p q items =
        items.map (fun item =>
          if item.id = p.id then { item with quantity := item.quantity + q }
          else item) :=
  fun _ _ q h => addToCart_of_merge q h

/-- Witness for C6, at a merge that drives the quantity past the line's
stock (2 + 5 over stock 3), exhibiting the absence of clamping. -/
theorem addToCart_merge_increments_witness :
    (∃ l ∈ ([⟨1, "X", 10, 2, "", 3, 0⟩] : List CartItem),
      l.id = (⟨1, "X", some (.num 10), some (.num 3), none, none⟩ : RawProduct).id) ∧
    addToCart ⟨1, "X", some (.num 10), some (.num 3), none, none⟩ 5
        [⟨1, "X", 10, 2, "", 3, 0⟩] =
      ([⟨1, "X", 10, 2, "", 3, 0⟩] : List CartItem).map (fun item =>
        if item.id = (⟨1, "X", some (.num 10), some (.num 3), none, none⟩ : RawProduct).id
        then { item with quantity := item.quantity + 5 }
        else item) :=
  ⟨⟨⟨1, "X", 10, 2, "", 3, 0⟩, by decide, by decide⟩,
   addToCart_merge_increments [⟨1, "X", 10, 2, "", 3, 0⟩]
     ⟨1, "X", some (.num 10), some (.num 3), none, none⟩ 5
     ⟨⟨1, "X", 10, 2, "", 3, 0⟩, by decide, by decide⟩⟩

/-- C9: `clearCart` is idempotent and leaves an empty collection; the
`localStorage` key is removed by `clearCart` itself, and once the save
effect has rerun the key holds the serialization of the empty
collection (the blob `[]`, which deserializes to the empty cart). -/
theorem clearCart_idempotent :
    ∀ s : CartState,
      clearCart (clearCart s) = clearCart s ∧
      (clearCart s).items = [] ∧
      (clearCart s).storage = none ∧
      applyOp s .clear = ⟨[], some (.ok (.arr []))⟩ ∧
      applyOp (applyOp s .clear) .clear = applyOp s .clear ∧
      sanitizeCartData (.arr []) = .ok [] :=
  fun _ => ⟨rfl, rfl, rfl, rfl, rfl, rfl⟩

/-- C10: for a quantity of at least `1`, `updateQuantity` is a frame
change: the list keeps its length and order, every line keeps its `id`,
`name`, `price`, `stock`, `fileName` and `sellerId`, and a line whose id
differs from the given one is untouched entirely. -/
theorem updateQuantity_frame :
    ∀ (items : List CartItem) (pid q : ℚ), 1 ≤ q →
      (updateQuantity pid q items).length = items.length ∧
      ∀ i : ℕ, i < items.length →
        ∃ r o : CartItem,
          (updateQuantity pid q items)[i]? = some r ∧
          items[i]? = some o ∧
          r.id = o.id ∧ r.name = o.name ∧ r.price = o.price ∧ r.stock = o.stock ∧
          r.fileName = o.fileName ∧ r.sellerId = o.sellerId ∧
          (o.id ≠ pid → r = o) := by
  intro items pid q hq1
  have hq : ¬ q ≤ 0 := by linarith
  have heq : updateQuantity pid q items =
      items.map (fun item =>
        if item.id = pid then { item with quantity := min q item.stock }
        else item) := by
    simp [updateQuantity, if_neg hq]
  rw [heq]
  refine ⟨List.length_map _ _, ?_⟩
  intro i hi
  rcases hx : items[i]? with _ | o
  · rw [List.getElem?_eq_none_iff] at hx
    omega
  · refine ⟨if o.id = pid then { o with quantity := min q o.stock } else o, o,
      ?_, rfl, ?_⟩
    · rw [List.getElem?_map, hx]
      rfl
    · by_cases hc : o.id = pid <;> simp [hc]

/-- Witness for C10 on a two-line cart. -/
theorem updateQuantity_frame_witness :
    ((1 : ℚ) ≤ 5) ∧
    ((updateQuantity 7 5 [⟨7, "a", 15, 2, "f", 9, 4⟩, ⟨8, "b", 1, 1, "g", 2, 3⟩]).length =
      ([⟨7, "a", 15, 2, "f", 9, 4⟩, ⟨8, "b", 1, 1, "g", 2, 3⟩] : List CartItem).length ∧
    ∀ i : ℕ, i < ([⟨7, "a", 15, 2, "f", 9, 4⟩, ⟨8, "b", 1, 1, "g", 2, 3⟩] : List CartItem).length →
      ∃ r o : CartItem,
        (updateQuantity 7 5 [⟨7, "a", 15, 2, "f", 9, 4⟩, ⟨8, "b", 1, 1, "g", 2, 3⟩])[i]? = some r ∧
        ([⟨7, "a", 15, 2, "f", 9, 4⟩, ⟨8, "b", 1, 1, "g", 2, 3⟩] : List CartItem)[i]? = some o ∧
        r.id = o.id ∧ r.name = o.name ∧ r.price = o.price ∧ r.stock = o.stock ∧
        r.fileName = o.fileName ∧ r.sellerId = o.sellerId ∧
        (o.id ≠ 7 → r = o)) :=
  ⟨by norm_num,
   updateQuantity_frame [⟨7, "a", 15, 2, "f", 9, 4⟩, ⟨8, "b", 1, 1, "g", 2, 3⟩] 7 5 (by norm_num)⟩

lemma addToCart_pairwise_ne {items : List CartItem} (p : RawProduct) (q : ℚ)
    (h : items.Pairwise (fun a b => a.id ≠ b.id)) :
    (addToCart p q items).Pairwise (fun a b => a.id ≠ b.id) := by
  by_cases hc : ∃ l ∈ items, l.id = p.id
  · rw [addToCart_of_merge q hc]
    refine h.map _ ?_
    intro a b hab
    have ha : ∀ c : CartItem,
        ((fun item => if item.id = p.id
            then { item with quantity := item.quantity + q } else item) c).id = c.id := by
      intro c
      by_cases h1 : c.id = p.id <;> simp [h1]
    rw [ha, ha]
    exact hab
  · rw [addToCart_of_fresh q hc]
    rw [List.pairwise_append]
    refine ⟨h, List.pairwise_singleton _ _, ?_⟩
    intro a ha b hb
    simp only [List.mem_singleton] at hb
    subst hb
    rw [sanitize_rawOfProduct_id]
    exact fun he => hc ⟨a, ha, he⟩

lemma wf_addToCart {items : List CartItem} (p : RawProduct) (q : ℚ) (hq : 1 ≤ q)
    (hs : ∃ s : ℚ, p.stock = some (.num s) ∧ 1 ≤ s) (h : Wf items) :
    Wf (addToCart p q items) := by
  by_cases hc : ∃ l ∈ items, l.id = p.id
  · rw [addToCart_of_merge q hc]
    intro l hl
    obtain ⟨o, ho, rfl⟩ := List.mem_map.mp hl
    obtain ⟨h1, h2⟩ := h o ho
    by_cases hid : o.id = p.id
    · simp only [hid, if_pos]
      exact ⟨by simpa using by linarith, by simpa using h2⟩
    · simp only [if_neg hid]
      exact ⟨h1, h2⟩
  · rw [addToCart_of_fresh q hc]
    intro l hl
    rw [List.mem_append] at hl
    rcases hl with hl | hl
    · exact h l hl
    · simp only [List.mem_singleton] at hl
      subst hl
      obtain ⟨s, hps, hs1⟩ := hs
      constructor
      · rw [sanitize_rawOfProduct_quantity p q (by linarith)]
        exact hq
      · show 1 ≤ ensureNumber (jsOrV (rawOfProduct p q).stock (.num 0))
        rw [show (rawOfProduct p q).stock = p.stock from rfl, hps,
          ensureNumber_jsOrV_num, if_neg (by linarith)]
        exact hs1

lemma wf_removeFromCart (pid : ℚ) {items : List CartItem} (h : Wf items) :
    Wf (removeFromCart pid items) :=
  fun l hl => h l (List.mem_of_mem_filter hl)

lemma wf_updateQuantity (pid q : ℚ) (hq : q ≤ 0 ∨ 1 ≤ q) {items : List CartItem}
    (h : Wf items) : Wf (updateQuantity pid q items) := by
  rcases hq with hq | hq
  · simp only [updateQuantity, if_pos hq]
    exact wf_removeFromCart pid h
  · have hq0 : ¬ q ≤ 0 := by linarith
    simp only [updateQuantity, if_neg hq0]
    intro l hl
    obtain ⟨o, ho, rfl⟩ := List.mem_map.mp hl
    obtain ⟨h1, h2⟩ := h o ho
    by_cases hid : o.id = pid
    · simp only [hid, if_pos]
      exact ⟨by simpa using le_min hq h2, by simpa using h2⟩
    · simp only [if_neg hid]
      exact ⟨h1, h2⟩

lemma goodOp_add {p : RawProduct} {q : ℚ} (h : goodOp (.add p q) = true) :
    1 ≤ q ∧ ∃ s : ℚ, p.stock = some (.num s) ∧ 1 ≤ s := by
  unfold goodOp at h
  rw [Bool.and_eq_true] at h
  obtain ⟨h1, h2⟩ := h
  refine ⟨of_decide_eq_true h1, ?_⟩
  rcases hps : p.stock with _ | v
  · rw [hps] at h2
    exact absurd h2 (by simp)
  · rcases v with s | s
    · rw [hps] at h2
      exact ⟨s, rfl, of_decide_eq_true h2⟩
    · rw [hps] at h2
      exact absurd h2 (by simp)

lemma goodOp_update {i q : ℚ} (h : goodOp (.update i q) = true) :
    q ≤ 0 ∨ 1 ≤ q := by
  unfold goodOp at h
  rw [Bool.or_eq_true] at h
  rcases h with h | h
  · exact Or.inl (of_decide_eq_true h)
  · exact Or.inr (of_decide_eq_true h)

/-- C1: any sequence of `addToCart` calls starting from the empty
collection produces a cart in which no two lines share an `id` (a later
add with an existing id merges into the line instead of inserting). -/
theorem addToCart_seq_unique_ids :
    ∀ calls : List (RawProduct × ℚ),
      (calls.foldl (fun items c => addToCart c.1 c.2 items) []).Pairwise
        (fun a b => a.id ≠ b.id) := by
  have key : ∀ (calls : List (RawProduct × ℚ)) (items : List CartItem),
      items.Pairwise (fun a b => a.id ≠ b.id) →
      (calls.foldl (fun items c => addToCart c.1 c.2 items) items).Pairwise
        (fun a b => a.id ≠ b.id) := by
    intro calls
    induction calls with
    | nil => exact fun _ h => h
    | cons c cs ih =>
        intro items h
        exact ih _ (addToCart_pairwise_ne c.1 c.2 h)
  exact fun calls => key calls [] List.Pairwise.nil

/-- C7: `addToCart` of a product whose id is not yet in the cart appends
exactly the sanitized line, and a non-numeric `price` or `stock` input
(a string `parseFloat` rejects, i.e. one that evaluates to `NaN`)
collapses to `0` in that inserted line.  The model functions are total:
no exception is raised.  The `quantity` parameter is a declared number
(default `1`), so a non-numeric quantity cannot arise. -/
theorem addToCart_junk_collapses_to_zero :
    ∀ (items : List CartItem) (p : RawProduct) (q : ℚ) (s : String),
      (¬ ∃ l ∈ items, l.id = p.id) → parseFloatQ s = none →
      addToCart p q items = items ++ [sanitizeCartItem (rawOfProduct p q)] ∧
      (p.price = some (.str s) → (sanitizeCartItem (rawOfProduct p q)).price = 0) ∧
      (p.stock = some (.str s) → (sanitizeCartItem (rawOfProduct p q)).stock = 0) := by
  intro items p q s hno hparse
  refine ⟨addToCart_of_fresh q hno, ?_, ?_⟩
  · intro hp
    show ensureNumber (jsOrV (rawOfProduct p q).price (.num 0)) = 0
    rw [show (rawOfProduct p q).price = p.price from rfl, hp]
    by_cases hs : s = "" <;> simp [jsOrV, ensureNumber, hs, hparse]
  · intro hp
    show ensureNumber (jsOrV (rawOfProduct p q).stock (.num 0)) = 0
    rw [show (rawOfProduct p q).stock = p.stock from rfl, hp]
    by_cases hs : s = "" <;> simp [jsOrV, ensureNumber, hs, hparse]

/-- Witness for C7: adding a product with price and stock `"abc"` to the
empty cart inserts a line with price `0` and stock `0`. -/
theorem addToCart_junk_collapses_to_zero_witness :
    (¬ ∃ l ∈ ([] : List CartItem),
      l.id = (⟨1, "X", some (.str "abc"), some (.str "abc"), none, none⟩ : RawProduct).id) ∧
    parseFloatQ "abc" = none ∧
    (addToCart ⟨1, "X", some (.str "abc"), some (.str "abc"), none, none⟩ 1 [] =
      [] ++ [sanitizeCartItem (rawOfProduct ⟨1, "X", some (.str "abc"), some (.str "abc"), none, none⟩ 1)] ∧
    ((⟨1, "X", some (.str "abc"), some (.str "abc"), none, none⟩ : RawProduct).price = some (.str "abc") →
      (sanitizeCartItem (rawOfProduct ⟨1, "X", some (.str "abc"), some (.str "abc"), none, none⟩ 1)).price = 0) ∧
    ((⟨1, "X", some (.str "abc"), some (.str "abc"), none, none⟩ : RawProduct).stock = some (.str "abc") →
      (sanitizeCartItem (rawOfProduct ⟨1, "X", some (.str "abc"), some (.str "abc"), none, none⟩ 1)).stock = 0)) :=
  ⟨by decide, by decide,
   addToCart_junk_collapses_to_zero []
     ⟨1, "X", some (.str "abc"), some (.str "abc"), none, none⟩ 1 "abc"
     (by decide) (by decide)⟩

/-- C4 counterexample: a single `addToCart` call with quantity `-1`
(an arbitrary argument value, as the claim quantifies) reaches a state
whose line has quantity `-1 < 1`: `-1` is truthy, so the sanitizer's
`quantity || 1` default does not engage and the raw value is kept. -/
theorem quantity_floor_invariant_cex :
    ¬ (∀ l ∈ (runOps [.add ⟨1, "X", some (.num 10), some (.num 5), none, none⟩ (-1)]).items,
        1 ≤ l.quantity) := by
  decide

/-- C4 amended: if every `addToCart` call carries a quantity of at
least `1` and a numeric stock of at least `1`, and every
`updateQuantity` call carries a quantity that is non-positive or at
least `1` (`goodOp`), then every line of every reachable state has
quantity at least `1`. -/
theorem quantity_floor_invariant_guarded :
    ∀ ops : List CartOp, (∀ op ∈ ops, goodOp op = true) →
      ∀ l ∈ (runOps ops).items, 1 ≤ l.quantity := by
  have key : ∀ (ops : List CartOp) (s : CartState), Wf s.items →
      (∀ op ∈ ops, goodOp op = true) → Wf (ops.foldl applyOp s).items := by
    intro ops
    induction ops with
    | nil => exact fun _ h _ => h
    | cons op os ih =>
        intro s hs hg
        apply ih
        · cases op with
          | add p q =>
              obtain ⟨hq, hstock⟩ := goodOp_add (hg _ (List.mem_cons_self _ _))
              exact wf_addToCart p q hq hstock hs
          | remove i => exact wf_removeFromCart i hs
          | update i q =>
              exact wf_updateQuantity i q
                (goodOp_update (hg _ (List.mem_cons_self _ _))) hs
          | clear =>
              intro l hl
              exact absurd hl (List.not_mem_nil l)
        · exact fun op hop => hg op (List.mem_cons_of_mem _ hop)
  intro ops hg l hl
  exact ((key ops ⟨[], none⟩ (fun l hl => absurd hl (List.not_mem_nil l)) hg) l hl).1

/-- Witness for the amended C4 at a concrete guarded operation list. -/
theorem quantity_floor_invariant_guarded_witness :
    (∀ op ∈ [CartOp.add ⟨1, "X", some (.num 10), some (.num 3), none, none⟩ 2,
             CartOp.update 1 5],
        goodOp op = true) ∧
    ∀ l ∈ (runOps [CartOp.add ⟨1, "X", some (.num 10), some (.num 3), none, none⟩ 2,
                   CartOp.update 1 5]).items,
      1 ≤ l.quantity :=
  ⟨by decide, quantity_floor_invariant_guarded _ (by decide)⟩

lemma if_default_self {α : Type} (x y : α) [Decidable (x = y)] :
    (if x = y then y else x) = x := by
  by_cases h : x = y
  · rw [if_pos h, h]
  · rw [if_neg h]

lemma toRaw_encodeItem (c : CartItem) :
    toRaw (encodeItem c) =
      .ok ⟨some (.num c.id), some c.name, some (.num c.price), some (.num c.quantity),
           some c.fileName, some (.num c.stock), some (.num c.sellerId)⟩ := rfl

lemma sanitize_roundtrip_item (c : CartItem) (hq : c.quantity ≠ 0) :
    (toRaw (encodeItem c)).map sanitizeCartItem = Except.ok c := by
  rw [toRaw_encodeItem]
  show Except.ok (sanitizeCartItem ⟨some (.num c.id), some c.name, some (.num c.price),
      some (.num c.quantity), some c.fileName, some (.num c.stock),
      some (.num c.sellerId)⟩) = Except.ok c
  congr 1
  show CartItem.mk (ensureNumber (jsOrV (some (.num c.id)) (.num 0)))
      (jsOrS (some c.name) "") (ensureNumber (jsOrV (some (.num c.price)) (.num 0)))
      (ensureNumber (jsOrV (some (.num c.quantity)) (.num 1)))
      (jsOrS (some c.fileName) "") (ensureNumber (jsOrV (some (.num c.stock)) (.num 0)))
      (ensureNumber (jsOrV (some (.num c.sellerId)) (.num 0))) = c
  simp only [ensureNumber_jsOrV_num, jsOrS_some]
  rcases c with ⟨cid, cname, cprice, cq, cfn, cstock, csid⟩
  rw [if_default_self cid 0, if_default_self cname "", if_default_self cprice 0,
      if_neg hq, if_default_self cfn "", if_default_self cstock 0,
      if_default_self csid 0]

lemma sanitizeCartData_null_mem (elems : List Json) (h : Json.null ∈ elems) :
    sanitizeCartData (.arr elems) = .error () := by
  show elems.mapM (fun j => (toRaw j).map sanitizeCartItem) = .error ()
  induction elems with
  | nil => cases h
  | cons a as ih =>
      simp only [List.mapM_cons]
      rcases List.mem_cons.mp h with rfl | h2
      · rfl
      · rcases hfa : (toRaw a).map sanitizeCartItem with e | b
        · rfl
        · rw [ih h2]
          rfl

lemma sanitizeCartData_non_arr (j : Json) (h : ∀ elems, j ≠ .arr elems) :
    sanitizeCartData j = .error () := by
  cases j with
  | arr elems => exact absurd rfl (h elems)
  | null => rfl
  | num q => rfl
  | str s => rfl
  | obj fs => rfl

/-- C5 counterexample: the blob `[5]` is valid JSON and an array, but
not an array of CartLine-shaped records; the load effect nevertheless
keeps it — the resulting collection holds one default-valued line and
the persisted key is not erased. -/
theorem load_malformed_recovery_cex :
    (loadCart (some (.ok (.arr [.num 5])))).items ≠ [] ∧
    (loadCart (some (.ok (.arr [.num 5])))).storage ≠ none := by
  constructor
  · decide
  · show (some (Except.ok (Json.arr [.num 5])) :
      Option (Except Unit Json)) ≠ none
    exact Option.some_ne_none _

/-- C5 amended: initialization recovers to the empty collection with the
key erased and no exception whenever the blob is missing, is not valid
JSON (`JSON.parse` throws), parses to a non-array, or parses to an array
containing `null` (property access throws inside the sanitizer); a valid
array of non-null elements is instead kept, each element sanitized, even
if its elements are not CartLine-shaped records. -/
theorem load_malformed_recovery :
    (∀ r : Except Unit Json,
        (r = .error () ∨ ∃ j, r = .ok j ∧ sanitizeCartData j = .error ()) →
        loadCart (some r) = ⟨[], none⟩) ∧
    (∀ j : Json, (∀ elems, j ≠ .arr elems) → loadCart (some (.ok j)) = ⟨[], none⟩) ∧
    (∀ elems : List Json, Json.null ∈ elems →
        loadCart (some (.ok (.arr elems))) = ⟨[], none⟩) ∧
    loadCart none = ⟨[], none⟩ := by
  have hbase : ∀ j : Json, sanitizeCartData j = .error () →
      loadCart (some (.ok j)) = ⟨[], none⟩ := by
    intro j hj
    simp only [loadCart]
    rw [hj]
  refine ⟨?_, ?_, ?_, rfl⟩
  · rintro r (rfl | ⟨j, rfl, hj⟩)
    · rfl
    · exact hbase j hj
  · exact fun j h => hbase j (sanitizeCartData_non_arr j h)
  · exact fun elems h => hbase _ (sanitizeCartData_null_mem elems h)

/-- Witness for the amended C5 at the invalid-JSON input. -/
theorem load_malformed_recovery_witness :
    ((Except.error () : Except Unit Json) = .error () ∨
      ∃ j, (Except.error () : Except Unit Json) = .ok j ∧
        sanitizeCartData j = .error ()) ∧
    loadCart (some (.error ())) = (⟨[], none⟩ : CartState) :=
  ⟨Or.inl rfl, load_malformed_recovery.1 (.error ()) (Or.inl rfl)⟩

/-- C8 counterexample: a collection whose line has quantity `0` does not
survive the persistence round trip: the sanitizer's `quantity || 1`
turns the falsy `0` into the default `1`. -/
theorem cart_roundtrip_cex :
    sanitizeCartData (encodeCart [⟨2, "Y", 5, 0, "", 0, 0⟩]) ≠
      Except.ok [⟨2, "Y", 5, 0, "", 0, 0⟩] := by
  have h : sanitizeCartData (encodeCart [⟨2, "Y", 5, 0, "", 0, 0⟩]) =
      Except.ok [⟨2, "Y", 5, 1, "", 0, 0⟩] := rfl
  rw [h]
  intro he
  simpa using Except.ok.inj he

/-- C8 amended: serializing a collection and deserializing it (parse
plus sanitization) returns the collection field for field, provided no
line has quantity `0` (the one falsy value that the sanitizer's
defaulting rewrites). -/
theorem cart_roundtrip_guarded :
    ∀ items : List CartItem, (∀ l ∈ items, l.quantity ≠ 0) →
      sanitizeCartData (encodeCart items) = Except.ok items := by
  intro items
  induction items with
  | nil => exact fun _ => rfl
  | cons c cs ih =>
      intro h
      have hc := sanitize_roundtrip_item c (h c (List.mem_cons_self _ _))
      have hcs : (List.mapM (fun j => (toRaw j).map sanitizeCartItem)
          (List.map encodeItem cs)) = Except.ok cs :=
        ih (fun l hl => h l (List.mem_cons_of_mem _ hl))
      show (List.mapM (fun j => (toRaw j).map sanitizeCartItem)
          (List.map encodeItem (c :: cs))) = Except.ok (c :: cs)
      simp only [List.map_cons, List.mapM_cons]
      rw [hc, hcs]
      rfl

/-- Witness for the amended C8 at a concrete one-line collection. -/
theorem cart_roundtrip_guarded_witness :
    (∀ l ∈ ([⟨1, "A", 2, 3, "f", 4, 5⟩] : List CartItem), l.quantity ≠ 0) ∧
    sanitizeCartData (encodeCart [⟨1, "A", 2, 3, "f", 4, 5⟩]) =
      Except.ok [⟨1, "A", 2, 3, "f", 4, 5⟩] :=
  ⟨by decide, cart_roundtrip_guarded _ (by decide)⟩
